import Mathlib

/-!
Verification of the skysensestreamer core: a shallow embedding of
`skysensestreamer/camera.py` and `skysensestreamer/dataproc/coords.py`
over the real numbers, together with theorems settling the specified
properties of the coordinate transform, position predictor, view model
and camera controller.
-/

open Real Classical

noncomputable section

/-- Geodetic coordinate: latitude/longitude in radians, altitude in feet.
Mirrors the `GPSCoord` value type constructed as `GPSCoord(lat, long, alt)`. -/
structure GPSCoord where
  latitude : ℝ
  longitude : ℝ
  altitude : ℝ
deriving DecidableEq

/-- Camera-relative local coordinate, as returned by `to_local`:
`LocalCoords(vertical, horizontal, delta_norm)`. -/
structure LocalCoord where
  altitude_angle : ℝ
  azimuth : ℝ
  distance : ℝ

/-- A 3-vector of reals, standing for the `np.array([x, y, z])` values used
in `coords.py`. -/
structure Vec3 where
  x : ℝ
  y : ℝ
  z : ℝ

/-- Dot product of two 3-vectors (`np.dot`). -/
def Vec3.dot (a b : Vec3) : ℝ := a.x * b.x + a.y * b.y + a.z * b.z

/-- Componentwise difference of two 3-vectors. -/
def Vec3.sub (a b : Vec3) : Vec3 := ⟨a.x - b.x, a.y - b.y, a.z - b.z⟩

/-- Euclidean norm of a 3-vector (`numpy.linalg.norm`). -/
def Vec3.norm (a : Vec3) : ℝ := Real.sqrt (a.x ^ 2 + a.y ^ 2 + a.z ^ 2)

/-- The Earth's equatorial radius in feet, from `coords.py`. -/
def equatorial_radius : ℝ := 20925646.3

/-- The Earth's polar radius in feet, from `coords.py`. -/
def polar_radius : ℝ := 20855486.5

/-- The tolerance test `np.isclose(a, b)` with numpy's default tolerances
`rtol = 1e-5`, `atol = 1e-8`: true when the absolute difference is at most
`atol + rtol * abs b`. -/
def isclose (a b : ℝ) : Prop := |a - b| ≤ 1e-8 + 1e-5 * |b|

/-- The helper `_prime_vertical_radius_of_curvature` from `coords.py`
(leading underscore dropped): `sqrt(1 - (1 - Rp^2/Re^2) * sin(phi)^2)`. -/
def prime_vertical_radius_of_curvature (phi : ℝ) : ℝ :=
  Real.sqrt (1 - (1 - polar_radius ^ 2 / equatorial_radius ^ 2) * Real.sin phi ^ 2)

/-- The `get_ecef` conversion from `coords.py`: geodetic to
earth-centered, earth-fixed Cartesian coordinates. -/
def get_ecef (c : GPSCoord) : Vec3 :=
  let n_phi := prime_vertical_radius_of_curvature c.latitude
  ⟨(n_phi + c.altitude) * Real.cos c.latitude * Real.cos c.longitude,
   (n_phi + c.altitude) * Real.cos c.latitude * Real.sin c.longitude,
   ((polar_radius ^ 2 / equatorial_radius ^ 2) * n_phi + c.altitude) * Real.sin c.latitude⟩

/-- The un-normalized local-north tangent vector built in `to_local`:
`(-x*z, -y*z, x^2 + y^2)` from the observer's ECEF components. -/
def level_north (v : Vec3) : Vec3 := ⟨-v.x * v.z, -v.y * v.z, v.x ^ 2 + v.y ^ 2⟩

/-- The un-normalized local-east tangent vector built in `to_local`:
`(-y, x, 0)` from the observer's ECEF components. -/
def level_east (v : Vec3) : Vec3 := ⟨-v.y, v.x, 0⟩

/-- The projection `north_proj = level_north . delta / norm(level_north)`
computed in `to_local`. -/
def north_proj (self target : GPSCoord) : ℝ :=
  (level_north (get_ecef self)).dot ((get_ecef self).sub (get_ecef target)) /
    (level_north (get_ecef self)).norm

/-- The projection `east_proj = level_east . delta / norm(level_east)`
computed in `to_local`. -/
def east_proj (self target : GPSCoord) : ℝ :=
  (level_east (get_ecef self)).dot ((get_ecef self).sub (get_ecef target)) /
    (level_east (get_ecef self)).norm

/-- The `to_local` function from `coords.py`: angles and distance from
`self` to `target`.  The azimuth is `pi/2` when `north_proj` is close to
zero, otherwise `arctan(east_proj / north_proj)`, and `pi` is added when
`self.lat < target.lat`. -/
def to_local (self target : GPSCoord) : LocalCoord :=
  let self_ecef := get_ecef self
  let delta := self_ecef.sub (get_ecef target)
  let delta_norm := delta.norm
  let vertical := Real.arccos (self_ecef.dot delta / (self_ecef.norm * delta_norm))
  let horizontal0 :=
    if isclose (north_proj self target) 0 then Real.pi / 2
    else Real.arctan (east_proj self target / north_proj self target)
  let horizontal :=
    if self.latitude < target.latitude then horizontal0 + Real.pi else horizontal0
  ⟨vertical, horizontal, delta_norm⟩

/-- The `View` of `camera.py`: an angular window with an altitude band and
an azimuth band (which may wrap). -/
structure View where
  upper_bound : ℝ
  lower_bound : ℝ
  left_bound : ℝ
  right_bound : ℝ

/-- The `View.contains` test from `camera.py`, rendered propositionally:
the chained comparison `upper <= alt <= lower` guards an `if`/`elif` pair on
the azimuth, the `elif` branch firing only when the first azimuth test fails
and `left_bound >= right_bound`. -/
def View.contains (v : View) (position : LocalCoord) : Prop :=
  (v.upper_bound ≤ position.altitude_angle ∧ position.altitude_angle ≤ v.lower_bound) ∧
    ((v.left_bound ≤ position.azimuth ∧ position.azimuth ≤ v.right_bound) ∨
      (¬(v.left_bound ≤ position.azimuth ∧ position.azimuth ≤ v.right_bound) ∧
        v.left_bound ≥ v.right_bound ∧
        (v.left_bound ≤ position.azimuth ∨ position.azimuth ≤ v.right_bound)))

/-- The `Airplane` state from `camera.py`: creation time, the deque of
timestamped positions, and the current extrapolation function. -/
structure Airplane where
  init_time : ℝ
  timestamped_positions : List (ℝ × GPSCoord)
  extrapolation : ℝ → GPSCoord

/-- The class attribute `Airplane.max_timestamped_positions = 3`. -/
def Airplane.max_timestamped_positions : ℕ := 3

/-- The `Airplane` constructor: no samples yet, and the default
extrapolation `lambda x: GPSCoord(0.0, 0.0, 0.0)`. -/
def Airplane.init (init_time : ℝ) : Airplane :=
  ⟨init_time, [], fun _ => ⟨0, 0, 0⟩⟩

/-- Appending to a `collections.deque` with `maxlen = 3`: when full, the
oldest (leftmost) element is silently evicted. -/
def dequeAppend (l : List (ℝ × GPSCoord)) (x : ℝ × GPSCoord) : List (ℝ × GPSCoord) :=
  if l.length < Airplane.max_timestamped_positions then l ++ [x] else l.drop 1 ++ [x]

/-- Modelled from the spec: `util.extrapolate` (the `dataproc/util.py`
module is not part of the provided sources).  Per the spec, each axis is fit
independently as a low-order polynomial interpolant across the buffered
samples; here the polynomial through the nodes is the Lagrange form. -/
def polyInterp (pts : List (ℝ × ℝ)) (t : ℝ) : ℝ :=
  (pts.map (fun p =>
    p.2 * ((pts.filter (fun q => q.1 ≠ p.1)).map (fun q => (t - q.1) / (p.1 - q.1))).prod)).sum

/-- Modelled from the spec: `util.extrapolate(times, positions)` returns a
function of time producing the per-axis extrapolated values. -/
def extrapolate (times : List ℝ) (positions : List (List ℝ)) : ℝ → List ℝ :=
  fun t =>
    (List.range 3).map (fun j =>
      polyInterp (times.zip (positions.map (fun row => row.getD j 0))) t)

/-- Rebuilding a `GPSCoord` from a 3-element list, as in
`GPSCoord(*extrapolate_array(t - self.init_time))`. -/
def gpsOfList (l : List ℝ) : GPSCoord := ⟨l.getD 0 0, l.getD 1 0, l.getD 2 0⟩

/-- The `_update_extrapolation` method (leading underscore dropped): with
exactly one sample the extrapolation is that constant position, otherwise it
is the fitted extrapolation over times shifted by `init_time`. -/
def Airplane.update_extrapolation (a : Airplane) : Airplane :=
  let times := a.timestamped_positions.map (fun tc => tc.1 - a.init_time)
  let positions :=
    a.timestamped_positions.map (fun tc => [tc.2.latitude, tc.2.longitude, tc.2.altitude])
  if times.length = 1 then
    { a with extrapolation := fun _ => (a.timestamped_positions.headD (0, ⟨0, 0, 0⟩)).2 }
  else
    { a with extrapolation := fun t => gpsOfList (extrapolate times positions (t - a.init_time)) }

/-- The `append_position` method: push the sample into the capacity-3 deque,
then rebuild the extrapolation. -/
def Airplane.append_position (a : Airplane) (new_time : ℝ) (new_pos : GPSCoord) : Airplane :=
  Airplane.update_extrapolation
    { a with timestamped_positions := dequeAppend a.timestamped_positions (new_time, new_pos) }

/-- The `position` property: the current extrapolation evaluated at the
current wall-clock time, made explicit as the parameter `now`. -/
def Airplane.position (a : Airplane) (now : ℝ) : GPSCoord := a.extrapolation now

/-- Folding a whole list of samples into a fresh `Airplane` through
`append_position`, in arrival order. -/
def runAppends (t0 : ℝ) (ss : List (ℝ × GPSCoord)) : Airplane :=
  ss.foldl (fun a s => a.append_position s.1 s.2) (Airplane.init t0)

/-- The `Camera` state from `camera.py`; the fields set to `None` in
`__init__` are modelled as `Option`s. -/
structure Camera where
  gps_position : Option GPSCoord
  tracked_airplane : Option Airplane
  direction : Option ℝ
  view : Option View
  airplanes : List Airplane

/-- The `Camera` constructor: every field starts unset. -/
def Camera.init : Camera := ⟨none, none, none, none, []⟩

/-- Python's float modulo `a % b`: `a - b * floor (a / b)`. -/
def rmod (a b : ℝ) : ℝ := a - b * (⌊a / b⌋ : ℤ)

/-- The `to_servo` method: `pan = (direction - azimuth) % (2*pi)` and
`tilt = pi/2 - altitude_angle`; `None` direction is the failure case. -/
def Camera.to_servo (cam : Camera) (lc : LocalCoord) : Option (ℝ × ℝ) :=
  cam.direction.map fun d =>
    (rmod (d - lc.azimuth) (2 * Real.pi), Real.pi / 2 - lc.altitude_angle)

/-- The `can_see` method: the tracked plane's current estimated position is
converted to local coordinates relative to `gps_position` and tested against
`view`; unset `gps_position` or `view` is the failure case. -/
def Camera.can_see (cam : Camera) (plane : Airplane) (now : ℝ) : Option Prop :=
  match cam.gps_position, cam.view with
  | some gp, some v => some (View.contains v (to_local gp (plane.position now)))
  | _, _ => none

/-- The claimed containment test, written from the spec sentences for C2:
the azimuth test is the in-range test when `left ≤ right` and the wraparound
test when `left > right`. -/
def containsSpec (v : View) (p : LocalCoord) : Prop :=
  (v.upper_bound ≤ p.altitude_angle ∧ p.altitude_angle ≤ v.lower_bound) ∧
    (if v.left_bound ≤ v.right_bound then
      v.left_bound ≤ p.azimuth ∧ p.azimuth ≤ v.right_bound
    else
      v.left_bound ≤ p.azimuth ∨ p.azimuth ≤ v.right_bound)

/-- The amended containment test: the wraparound azimuth test applies
already when `left ≥ right`, so that a window with `left = right` accepts
every azimuth. -/
def containsAmended (v : View) (p : LocalCoord) : Prop :=
  (v.upper_bound ≤ p.altitude_angle ∧ p.altitude_angle ≤ v.lower_bound) ∧
    (if v.left_bound < v.right_bound then
      v.left_bound ≤ p.azimuth ∧ p.azimuth ≤ v.right_bound
    else
      v.left_bound ≤ p.azimuth ∨ p.azimuth ≤ v.right_bound)

/-- The ECEF conversion written from the spec sentences for C5, numerals
inline. -/
def ecefSpec (c : GPSCoord) : Vec3 :=
  let re : ℝ := 20925646.3
  let rp : ℝ := 20855486.5
  let n := Real.sqrt (1 - (1 - rp ^ 2 / re ^ 2) * Real.sin c.latitude ^ 2)
  ⟨(n + c.altitude) * Real.cos c.latitude * Real.cos c.longitude,
   (n + c.altitude) * Real.cos c.latitude * Real.sin c.longitude,
   ((rp ^ 2 / re ^ 2) * n + c.altitude) * Real.sin c.latitude⟩

/-- Modelled from the spec: the caller-side modulo-2π azimuth normalization
that the View Model contract requires before the cyclic containment test. -/
def normalize_azimuth (lc : LocalCoord) : LocalCoord :=
  ⟨lc.altitude_angle, rmod lc.azimuth (2 * Real.pi), lc.distance⟩

/-- Abbreviation for the squared radius ratio `Rp^2 / Re^2`. -/
def kE : ℝ := polar_radius ^ 2 / equatorial_radius ^ 2

/-- The extrapolation function `_update_extrapolation` installs, as a pure
function of the creation time and the sample buffer. -/
def rebuildExtrap (t0 : ℝ) (buf : List (ℝ × GPSCoord)) : ℝ → GPSCoord :=
  if (buf.map (fun tc => tc.1 - t0)).length = 1 then
    fun _ => (buf.headD (0, ⟨0, 0, 0⟩)).2
  else
    fun t => gpsOfList (extrapolate (buf.map (fun tc => tc.1 - t0))
      (buf.map (fun tc => [tc.2.latitude, tc.2.longitude, tc.2.altitude])) (t - t0))

/-- A concrete four-sample telemetry sequence. -/
def sampleList : List (ℝ × GPSCoord) :=
  [(0, ⟨1, 0, 0⟩), (1, ⟨2, 0, 0⟩), (2, ⟨3, 0, 0⟩), (3, ⟨4, 0, 0⟩)]

/-- A concrete aircraft position south-west of the origin observer (latitude
−π/4, longitude π/2, altitude 0), whose local azimuth comes out negative. -/
def tgtC3 : GPSCoord := ⟨-(π / 4), π / 2, 0⟩

/-- The abbreviation `sqrt ((1 + kE) / 2)`: the prime-vertical radius factor
at latitude ±π/4. -/
def nC3 : ℝ := Real.sqrt ((1 + kE) / 2)

/-- A concrete view window whose azimuth band is [3π/2, 2π]. -/
def viewC3 : View := ⟨0, π, 3 * π / 2, 2 * π⟩

/-- A concrete camera at the origin with the window `viewC3`. -/
def camC3 : Camera := ⟨some ⟨0, 0, 0⟩, none, none, some viewC3, []⟩

/-- A concrete aircraft holding the single sample (0, tgtC3). -/
def planeC3 : Airplane := (Airplane.init 0).append_position 0 tgtC3

end

/-- The azimuth component of `to_local`, unfolded. -/
theorem to_local_azimuth (s t : GPSCoord) :
    (to_local s t).azimuth =
      if s.latitude < t.latitude then
        (if isclose (north_proj s t) 0 then π / 2
          else Real.arctan (east_proj s t / north_proj s t)) + π
      else
        (if isclose (north_proj s t) 0 then π / 2
          else Real.arctan (east_proj s t / north_proj s t)) := rfl

/-- The altitude-angle component of `to_local`, unfolded. -/
theorem to_local_altitude_angle (s t : GPSCoord) :
    (to_local s t).altitude_angle =
      Real.arccos ((get_ecef s).dot ((get_ecef s).sub (get_ecef t)) /
        ((get_ecef s).norm * ((get_ecef s).sub (get_ecef t)).norm)) := rfl

/-- Python float modulo with a positive modulus is nonnegative. -/
theorem rmod_nonneg (a : ℝ) {b : ℝ} (hb : 0 < b) : 0 ≤ rmod a b := by
  have h : (⌊a / b⌋ : ℝ) ≤ a / b := Int.floor_le (a / b)
  have h2 : (⌊a / b⌋ : ℝ) * b ≤ a / b * b := mul_le_mul_of_nonneg_right h hb.le
  rw [div_mul_cancel₀ a hb.ne'] at h2
  unfold rmod
  linarith

/-- Python float modulo with a positive modulus is below the modulus. -/
theorem rmod_lt (a : ℝ) {b : ℝ} (hb : 0 < b) : rmod a b < b := by
  have h : a / b < (⌊a / b⌋ : ℝ) + 1 := Int.lt_floor_add_one (a / b)
  have h2 : a < ((⌊a / b⌋ : ℝ) + 1) * b := (div_lt_iff₀ hb).mp h
  have h3 : ((⌊a / b⌋ : ℝ) + 1) * b = b * (⌊a / b⌋ : ℝ) + b := by ring
  unfold rmod
  linarith [h2, h3.le]

/-- Appending a first sample to a fresh airplane yields a one-sample buffer
and a constant extrapolation. -/
theorem append_single (ti t0 : ℝ) (P0 : GPSCoord) :
    ((Airplane.init ti).append_position t0 P0).timestamped_positions = [(t0, P0)] ∧
    ∀ t, ((Airplane.init ti).append_position t0 P0).position t = P0 :=
  ⟨rfl, fun _ => rfl⟩

/-- Claim C1: the code does NOT fail fast for an aircraft with zero recorded
samples: a freshly constructed `Airplane` carries the default extrapolation
and estimating its position returns the geodetic coordinate (0, 0, 0) at
every query time.  This is the documented default-fallback bug. -/
theorem C1_zero_samples_returns_origin (t0 t : ℝ) :
    (Airplane.init t0).position t = ⟨0, 0, 0⟩ := rfl

/-- Claim C2 counterexample: with bounds upper = 0, lower = π,
left = right = 0 and a local coordinate with azimuth 1, the code's
`contains` holds (the `elif` fires because left ≥ right), while the claimed
non-wrapping test `left ≤ azimuth ≤ right` fails. -/
theorem C2_counterexample :
    View.contains ⟨0, π, 0, 0⟩ ⟨1, 1, 0⟩ ∧ ¬ containsSpec ⟨0, π, 0, 0⟩ ⟨1, 1, 0⟩ := by
  have hπ : (3 : ℝ) < π := pi_gt_three
  constructor
  · exact ⟨⟨by norm_num, by show (1 : ℝ) ≤ π; linarith⟩,
      Or.inr ⟨by norm_num, le_refl 0, Or.inl (by norm_num)⟩⟩
  · intro h
    have h2 := h.2
    simp only [containsSpec] at h2
    rw [if_pos (le_refl (0 : ℝ))] at h2
    exact absurd h2.2 (by norm_num)

/-- Claim C2 amended: `contains` returns true iff the altitude test passes
and the azimuth test passes, where the wrapping azimuth test
`azimuth ≥ left ∨ azimuth ≤ right` applies whenever `left ≥ right`
(including the boundary `left = right`, where every azimuth passes), and the
in-range test `left ≤ azimuth ≤ right` applies when `left < right`. -/
theorem C2_contains_amended (v : View) (p : LocalCoord) :
    View.contains v p ↔ containsAmended v p := by
  unfold View.contains containsAmended
  constructor
  · rintro ⟨halt, h⟩
    refine ⟨halt, ?_⟩
    split_ifs with hlt
    · rcases h with h | ⟨_, hge, _⟩
      · exact h
      · exact absurd hge (not_le.mpr hlt)
    · rcases h with h | ⟨_, _, hor⟩
      · exact Or.inl h.1
      · exact hor
  · rintro ⟨halt, h⟩
    refine ⟨halt, ?_⟩
    split_ifs at h with hlt
    · exact Or.inl h
    · push_neg at hlt
      by_cases hc : v.left_bound ≤ p.azimuth ∧ p.azimuth ≤ v.right_bound
      · exact Or.inl hc
      · exact Or.inr ⟨hc, hlt, h⟩

/-- Claim C5: `get_ecef` computes exactly the spec's formulas with
Re = 20925646.3 and Rp = 20855486.5. -/
theorem C5_get_ecef_formula (c : GPSCoord) : get_ecef c = ecefSpec c := rfl

/-- Claim C6: for an aircraft whose sample buffer holds exactly one sample
(t0, P0), the rebuilt extrapolation returns P0 at every query time. -/
theorem C6_single_sample_constant (a : Airplane) (t0 : ℝ) (P0 : GPSCoord) (t : ℝ)
    (h : a.timestamped_positions = [(t0, P0)]) :
    (Airplane.update_extrapolation a).position t = P0 := by
  unfold Airplane.update_extrapolation Airplane.position
  simp [h]

/-- Witness for C6 at a concrete one-sample aircraft state. -/
theorem C6_witness :
    (Airplane.update_extrapolation ⟨0, [(5, ⟨1, 2, 3⟩)], fun _ => ⟨0, 0, 0⟩⟩).position 42 =
      ⟨1, 2, 3⟩ :=
  C6_single_sample_constant ⟨0, [(5, ⟨1, 2, 3⟩)], fun _ => ⟨0, 0, 0⟩⟩ 5 ⟨1, 2, 3⟩ 42 rfl

/-- Claim C8: with the direction set, `to_servo` returns
pan = (direction − azimuth) mod 2π, which lies in [0, 2π), and
tilt = π/2 − altitude_angle, with no clamping. -/
theorem C8_to_servo_pan_tilt (cam : Camera) (d : ℝ) (lc : LocalCoord)
    (h : cam.direction = some d) :
    cam.to_servo lc = some (rmod (d - lc.azimuth) (2 * π), π / 2 - lc.altitude_angle) ∧
    0 ≤ rmod (d - lc.azimuth) (2 * π) ∧ rmod (d - lc.azimuth) (2 * π) < 2 * π := by
  have h2 : (0 : ℝ) < 2 * π := by positivity
  exact ⟨by simp [Camera.to_servo, h], rmod_nonneg _ h2, rmod_lt _ h2⟩

/-- Witness for C8 at a concrete camera with direction 0. -/
theorem C8_witness :
    Camera.to_servo ⟨none, none, some 0, none, []⟩ ⟨0, 0, 0⟩ =
      some (rmod (0 - 0) (2 * π), π / 2 - 0) ∧
    0 ≤ rmod (0 - 0) (2 * π) ∧ rmod (0 - 0) (2 * π) < 2 * π :=
  C8_to_servo_pan_tilt ⟨none, none, some 0, none, []⟩ 0 ⟨0, 0, 0⟩ rfl

/-- Claim C9: `can_see` with an unset camera position or view fails fast
(propagates the failure as `none`) and never proceeds with defaults. -/
theorem C9_can_see_uninitialized (cam : Camera) (plane : Airplane) (t : ℝ)
    (h : cam.gps_position = none ∨ cam.view = none) :
    cam.can_see plane t = none := by
  rcases h with h | h
  · cases hv : cam.view <;> simp [Camera.can_see, h, hv]
  · cases hg : cam.gps_position <;> simp [Camera.can_see, h, hg]

/-- Witness for C9 at the freshly constructed camera. -/
theorem C9_witness :
    (Camera.init.gps_position = none ∨ Camera.init.view = none) ∧
    Camera.init.can_see (Airplane.init 0) 0 = none :=
  ⟨Or.inl rfl, C9_can_see_uninitialized Camera.init (Airplane.init 0) 0 (Or.inl rfl)⟩

/-- Claim C10: when the documented altitude invariant is violated
(upper_bound > lower_bound), `contains` rejects every local coordinate. -/
theorem C10_empty_altitude_band (v : View) (p : LocalCoord)
    (h : v.upper_bound > v.lower_bound) : ¬ View.contains v p := by
  rintro ⟨⟨h1, h2⟩, -⟩
  linarith

/-- Witness for C10 at a concrete inverted view window. -/
theorem C10_witness :
    (View.mk 1 0 0 0).upper_bound > (View.mk 1 0 0 0).lower_bound ∧
    ¬ View.contains ⟨1, 0, 0, 0⟩ ⟨0, 0, 0⟩ :=
  ⟨by norm_num, C10_empty_altitude_band ⟨1, 0, 0, 0⟩ ⟨0, 0, 0⟩ (by norm_num)⟩

/-- `_update_extrapolation` only replaces the extrapolation field, with the
pure rebuild of the current buffer. -/
theorem update_extrapolation_eq (a : Airplane) :
    Airplane.update_extrapolation a =
      ⟨a.init_time, a.timestamped_positions,
        rebuildExtrap a.init_time a.timestamped_positions⟩ := by
  by_cases h : (a.timestamped_positions.map (fun tc => tc.1 - a.init_time)).length = 1
  · simp only [Airplane.update_extrapolation, rebuildExtrap, if_pos h]
  · simp only [Airplane.update_extrapolation, rebuildExtrap, if_neg h]

/-- Appending into the capacity-3 deque keeps exactly the most recent three
samples, uniformly in the list length. -/
theorem dequeAppend_drop (ss : List (ℝ × GPSCoord)) (x : ℝ × GPSCoord) :
    dequeAppend (ss.drop (ss.length - 3)) x = (ss ++ [x]).drop ((ss ++ [x]).length - 3) := by
  unfold dequeAppend Airplane.max_timestamped_positions
  have hx : (ss ++ [x]).length = ss.length + 1 := by simp
  by_cases h : ss.length < 3
  · rw [Nat.sub_eq_zero_of_le h.le, List.drop_zero, if_pos h, hx,
      (by omega : ss.length + 1 - 3 = 0), List.drop_zero]
  · push_neg at h
    rw [if_neg (by rw [List.length_drop]; omega)]
    rw [List.drop_drop]
    have h2 : (ss ++ [x]).length - 3 = ss.length - 2 := by rw [hx]; omega
    have h3 : ss.length - 3 + 1 = ss.length - 2 := by omega
    rw [h2, h3, List.drop_append_of_le_length (by omega)]

/-- The buffer and creation time after folding any telemetry sequence into a
fresh airplane: the buffer is always the at-most-3 most recent samples. -/
theorem runAppends_buffer (t0 : ℝ) (ss : List (ℝ × GPSCoord)) :
    (runAppends t0 ss).timestamped_positions = ss.drop (ss.length - 3) ∧
    (runAppends t0 ss).init_time = t0 := by
  induction ss using List.reverseRecOn with
  | nil => exact ⟨rfl, rfl⟩
  | append_singleton ss x ih =>
    have hstep : runAppends t0 (ss ++ [x]) = (runAppends t0 ss).append_position x.1 x.2 := by
      simp [runAppends, List.foldl_append]
    rw [hstep, Airplane.append_position, update_extrapolation_eq]
    exact ⟨by simp [ih.1, ih.2, dequeAppend_drop], by simp [ih.2]⟩

/-- After at least one sample, the current extrapolation is exactly the one
rebuilt from the retained buffer (the most recent at most 3 samples). -/
theorem runAppends_extrapolation (t0 : ℝ) (ss : List (ℝ × GPSCoord)) (h : ss ≠ []) :
    (runAppends t0 ss).extrapolation = rebuildExtrap t0 (ss.drop (ss.length - 3)) := by
  rcases ss.eq_nil_or_concat with rfl | ⟨ss', x, rfl⟩
  · exact absurd rfl h
  · simp only [List.concat_eq_append]
    have hstep : runAppends t0 (ss' ++ [x]) = (runAppends t0 ss').append_position x.1 x.2 := by
      simp [runAppends, List.foldl_append]
    have hb := runAppends_buffer t0 ss'
    rw [hstep, Airplane.append_position, update_extrapolation_eq]
    simp only [hb.1, hb.2, dequeAppend_drop]

/-- Claim C7: the sample buffer never exceeds 3 entries, and once at least 3
samples have arrived the buffer holds exactly the latest 3 in arrival order,
with the extrapolation rebuilt from only those samples (and the creation
time). -/
theorem C7_ring_buffer (t0 : ℝ) (ss : List (ℝ × GPSCoord)) :
    (runAppends t0 ss).timestamped_positions.length ≤ 3 ∧
    (3 ≤ ss.length →
      (runAppends t0 ss).timestamped_positions = ss.drop (ss.length - 3) ∧
      (runAppends t0 ss).extrapolation =
        (Airplane.update_extrapolation
          ⟨t0, ss.drop (ss.length - 3), fun _ => ⟨0, 0, 0⟩⟩).extrapolation) := by
  have hb := runAppends_buffer t0 ss
  refine ⟨?_, fun h3 => ⟨hb.1, ?_⟩⟩
  · rw [hb.1, List.length_drop]; omega
  · rw [runAppends_extrapolation t0 ss (by intro he; rw [he] at h3; simp at h3),
      update_extrapolation_eq]

/-- Witness for C7 on a concrete four-sample sequence. -/
theorem C7_witness :
    (runAppends 0 sampleList).timestamped_positions.length ≤ 3 ∧
    (runAppends 0 sampleList).timestamped_positions =
      sampleList.drop (sampleList.length - 3) ∧
    (runAppends 0 sampleList).extrapolation =
      (Airplane.update_extrapolation
        ⟨0, sampleList.drop (sampleList.length - 3), fun _ => ⟨0, 0, 0⟩⟩).extrapolation :=
  ⟨(C7_ring_buffer 0 sampleList).1,
    ((C7_ring_buffer 0 sampleList).2 (by simp [sampleList])).1,
    ((C7_ring_buffer 0 sampleList).2 (by simp [sampleList])).2⟩

/-- The squared radius ratio is positive. -/
theorem kE_pos : 0 < kE := by
  unfold kE polar_radius equatorial_radius
  positivity

/-- The squared radius ratio exceeds one half. -/
theorem kE_gt_half : 1 / 2 < kE := by
  unfold kE polar_radius equatorial_radius
  rw [lt_div_iff₀ (by norm_num)]
  norm_num

/-- ECEF coordinates of the observer at geodetic (0, 0, 0). -/
theorem ecef_origin : get_ecef ⟨0, 0, 0⟩ = ⟨1, 0, 0⟩ := by
  simp only [get_ecef, prime_vertical_radius_of_curvature]
  norm_num [Real.sin_zero, Real.cos_zero, Real.sqrt_one]

/-- ECEF coordinates of the target at latitude π/2 with the altitude chosen
so that all three components vanish. -/
theorem ecef_polar : get_ecef ⟨π / 2, 0, -(kE * Real.sqrt kE)⟩ = ⟨0, 0, 0⟩ := by
  simp only [get_ecef, prime_vertical_radius_of_curvature]
  rw [show polar_radius ^ 2 / equatorial_radius ^ 2 = kE from rfl]
  have h1 : (1 : ℝ) - (1 - kE) * Real.sin (π / 2) ^ 2 = kE := by
    rw [Real.sin_pi_div_two]; ring
  norm_num [h1, Real.cos_pi_div_two, Real.sin_pi_div_two]

/-- ECEF coordinates of the target at latitude −π/2 with the altitude chosen
so that all three components vanish. -/
theorem ecef_south : get_ecef ⟨-(π / 2), 0, -(kE * Real.sqrt kE)⟩ = ⟨0, 0, 0⟩ := by
  simp only [get_ecef, prime_vertical_radius_of_curvature]
  rw [show polar_radius ^ 2 / equatorial_radius ^ 2 = kE from rfl]
  have h1 : (1 : ℝ) - (1 - kE) * Real.sin (-(π / 2)) ^ 2 = kE := by
    rw [Real.sin_neg, Real.sin_pi_div_two]; ring
  norm_num [h1, Real.cos_neg, Real.cos_pi_div_two, Real.sin_neg, Real.sin_pi_div_two]

/-- The north projection vanishes for the polar degenerate target. -/
theorem np_polar : north_proj ⟨0, 0, 0⟩ ⟨π / 2, 0, -(kE * Real.sqrt kE)⟩ = 0 := by
  unfold north_proj
  rw [ecef_origin, ecef_polar]
  simp only [level_north, Vec3.dot, Vec3.sub, Vec3.norm]
  norm_num

/-- The north projection vanishes for the south degenerate target. -/
theorem np_south : north_proj ⟨0, 0, 0⟩ ⟨-(π / 2), 0, -(kE * Real.sqrt kE)⟩ = 0 := by
  unfold north_proj
  rw [ecef_origin, ecef_south]
  simp only [level_north, Vec3.dot, Vec3.sub, Vec3.norm]
  norm_num

/-- The degenerate-geometry tolerance test passes at the polar target. -/
theorem isclose_np_polar :
    isclose (north_proj ⟨0, 0, 0⟩ ⟨π / 2, 0, -(kE * Real.sqrt kE)⟩) 0 := by
  rw [isclose, np_polar]
  norm_num

/-- The degenerate-geometry tolerance test passes at the south target. -/
theorem isclose_np_south :
    isclose (north_proj ⟨0, 0, 0⟩ ⟨-(π / 2), 0, -(kE * Real.sqrt kE)⟩) 0 := by
  rw [isclose, np_south]
  norm_num

/-- Claim C4 counterexample: a degenerate pair (north projection exactly 0)
where the observer's latitude is below the target's, so the quadrant
correction still adds π and the returned azimuth is 3π/2, not π/2. -/
theorem C4_counterexample :
    isclose (north_proj ⟨0, 0, 0⟩ ⟨π / 2, 0, -(kE * Real.sqrt kE)⟩) 0 ∧
    (to_local ⟨0, 0, 0⟩ ⟨π / 2, 0, -(kE * Real.sqrt kE)⟩).azimuth = π / 2 + π ∧
    (to_local ⟨0, 0, 0⟩ ⟨π / 2, 0, -(kE * Real.sqrt kE)⟩).azimuth ≠ π / 2 := by
  have hc := isclose_np_polar
  have haz : (to_local ⟨0, 0, 0⟩ ⟨π / 2, 0, -(kE * Real.sqrt kE)⟩).azimuth = π / 2 + π := by
    rw [to_local_azimuth]
    rw [if_pos (show (GPSCoord.mk 0 0 0).latitude <
      (GPSCoord.mk (π / 2) 0 (-(kE * Real.sqrt kE))).latitude from pi_div_two_pos)]
    rw [if_pos hc]
  refine ⟨hc, haz, ?_⟩
  rw [haz]
  have := pi_pos
  intro heq
  linarith

/-- Claim C4 amended: when the north projection is within tolerance of zero,
the azimuth before the quadrant correction is the fixed π/2 fallback; the
returned azimuth is π/2 when the observer's latitude is not below the
target's, and π/2 + π otherwise. -/
theorem C4_degenerate_fallback (s t : GPSCoord) (h : isclose (north_proj s t) 0) :
    (to_local s t).azimuth =
      if s.latitude < t.latitude then π / 2 + π else π / 2 := by
  rw [to_local_azimuth]
  by_cases hl : s.latitude < t.latitude
  · rw [if_pos hl, if_pos hl, if_pos h]
  · rw [if_neg hl, if_neg hl, if_pos h]

/-- Witness for C4 at the south degenerate target, where no correction
applies and the azimuth is exactly π/2. -/
theorem C4_witness :
    isclose (north_proj ⟨0, 0, 0⟩ ⟨-(π / 2), 0, -(kE * Real.sqrt kE)⟩) 0 ∧
    (to_local ⟨0, 0, 0⟩ ⟨-(π / 2), 0, -(kE * Real.sqrt kE)⟩).azimuth =
      if (GPSCoord.mk 0 0 0).latitude <
          (GPSCoord.mk (-(π / 2)) 0 (-(kE * Real.sqrt kE))).latitude
      then π / 2 + π else π / 2 :=
  ⟨isclose_np_south, C4_degenerate_fallback ⟨0, 0, 0⟩ ⟨-(π / 2), 0, -(kE * Real.sqrt kE)⟩
    isclose_np_south⟩

/-- ECEF coordinates of the concrete target at latitude −π/4, longitude
π/2. -/
theorem ecef_tgtC3 :
    get_ecef tgtC3 = ⟨0, nC3 * (Real.sqrt 2 / 2), -(kE * nC3 * (Real.sqrt 2 / 2))⟩ := by
  simp only [tgtC3, get_ecef, prime_vertical_radius_of_curvature]
  rw [show polar_radius ^ 2 / equatorial_radius ^ 2 = kE from rfl]
  have hsin : Real.sin (-(π / 4)) = -(Real.sqrt 2 / 2) := by
    rw [Real.sin_neg, Real.sin_pi_div_four]
  have hcos : Real.cos (-(π / 4)) = Real.sqrt 2 / 2 := by
    rw [Real.cos_neg, Real.cos_pi_div_four]
  have harg : (1 : ℝ) - (1 - kE) * Real.sin (-(π / 4)) ^ 2 = (1 + kE) / 2 := by
    rw [hsin, neg_sq, div_pow, Real.sq_sqrt (by norm_num : (0 : ℝ) ≤ 2)]
    ring
  rw [harg, show Real.sqrt ((1 + kE) / 2) = nC3 from rfl, hcos,
    Real.cos_pi_div_two, Real.sin_pi_div_two]
  norm_num [Vec3.mk.injEq]

/-- The north projection at the concrete C3 pair. -/
theorem np_C3 : north_proj ⟨0, 0, 0⟩ tgtC3 = kE * nC3 * (Real.sqrt 2 / 2) := by
  unfold north_proj
  rw [ecef_origin, ecef_tgtC3]
  simp only [level_north, Vec3.dot, Vec3.sub, Vec3.norm]
  norm_num [Real.sqrt_one]

/-- The east projection at the concrete C3 pair. -/
theorem ep_C3 : east_proj ⟨0, 0, 0⟩ tgtC3 = -(nC3 * (Real.sqrt 2 / 2)) := by
  unfold east_proj
  rw [ecef_origin, ecef_tgtC3]
  simp only [level_east, Vec3.dot, Vec3.sub, Vec3.norm]
  norm_num [Real.sqrt_one]

/-- The radius factor at ±π/4 is positive. -/
theorem nC3_pos : 0 < nC3 :=
  Real.sqrt_pos.mpr (by have := kE_pos; linarith)

/-- The radius factor at ±π/4 exceeds one half. -/
theorem nC3_gt_half : 1 / 2 < nC3 := by
  rw [nC3, Real.lt_sqrt (by norm_num)]
  have := kE_gt_half
  nlinarith

/-- Half the square root of two exceeds one half. -/
theorem sqrt2_half_gt : 1 / 2 < Real.sqrt 2 / 2 := by
  have h : 1 < Real.sqrt 2 := by
    rw [show (1 : ℝ) = Real.sqrt 1 from Real.sqrt_one.symm]
    exact Real.sqrt_lt_sqrt (by norm_num) (by norm_num)
  linarith

/-- The C3 north projection is positive. -/
theorem np_C3_pos : 0 < north_proj ⟨0, 0, 0⟩ tgtC3 := by
  rw [np_C3]
  have h2 : (0 : ℝ) < Real.sqrt 2 / 2 := by positivity
  exact mul_pos (mul_pos kE_pos nC3_pos) h2

/-- The C3 north projection exceeds one eighth. -/
theorem np_C3_gt : 1 / 8 < north_proj ⟨0, 0, 0⟩ tgtC3 := by
  rw [np_C3]
  have h1 : 1 / 4 < kE * nC3 := by nlinarith [kE_gt_half, nC3_gt_half]
  nlinarith [h1, sqrt2_half_gt]

/-- The C3 north projection is far from zero, so the tolerance test fails. -/
theorem not_isclose_C3 : ¬ isclose (north_proj ⟨0, 0, 0⟩ tgtC3) 0 := by
  rw [isclose, sub_zero, abs_zero, abs_of_pos np_C3_pos]
  push_neg
  have := np_C3_gt
  norm_num
  linarith

/-- The observer's latitude 0 is not below the target latitude −π/4. -/
theorem not_lat_C3 : ¬ ((GPSCoord.mk 0 0 0).latitude < tgtC3.latitude) := by
  simp only [tgtC3]
  push_neg
  show -(π / 4) ≤ (0 : ℝ)
  have := pi_pos
  linarith

/-- The azimuth `can_see` hands to `contains` at the C3 pair is the raw
arctangent of the projection ratio. -/
theorem az_C3 :
    (to_local ⟨0, 0, 0⟩ tgtC3).azimuth =
      Real.arctan (east_proj ⟨0, 0, 0⟩ tgtC3 / north_proj ⟨0, 0, 0⟩ tgtC3) := by
  rw [to_local_azimuth, if_neg not_lat_C3, if_neg not_isclose_C3]

/-- That azimuth is negative, hence not normalized into [0, 2π). -/
theorem az_C3_neg : (to_local ⟨0, 0, 0⟩ tgtC3).azimuth < 0 := by
  rw [az_C3]
  have hratio : east_proj ⟨0, 0, 0⟩ tgtC3 / north_proj ⟨0, 0, 0⟩ tgtC3 < 0 := by
    apply div_neg_of_neg_of_pos _ np_C3_pos
    rw [ep_C3, neg_lt_zero]
    have h2 : (0 : ℝ) < Real.sqrt 2 / 2 := by positivity
    exact mul_pos nC3_pos h2
  have h := Real.arctan_strictMono hratio
  rwa [Real.arctan_zero] at h

/-- That azimuth is above −π/2. -/
theorem az_C3_gt : -(π / 2) < (to_local ⟨0, 0, 0⟩ tgtC3).azimuth := by
  rw [az_C3]
  exact Real.neg_pi_div_two_lt_arctan _

/-- The raw local coordinate is rejected by the [3π/2, 2π] window. -/
theorem not_contains_C3 : ¬ View.contains viewC3 (to_local ⟨0, 0, 0⟩ tgtC3) := by
  rintro ⟨-, h⟩
  have haz := az_C3_neg
  have hπ := pi_pos
  simp only [viewC3] at h
  rcases h with ⟨h1, -⟩ | ⟨-, hge, -⟩
  · show False
    have : (0 : ℝ) < 3 * π / 2 := by linarith
    linarith
  · show False
    have : (3 : ℝ) * π / 2 < 2 * π := by linarith
    exact absurd hge (not_le.mpr this)

/-- Python modulo 2π shifts the C3 azimuth by one full turn. -/
theorem rmod_az_C3 :
    rmod (to_local ⟨0, 0, 0⟩ tgtC3).azimuth (2 * π) =
      (to_local ⟨0, 0, 0⟩ tgtC3).azimuth + 2 * π := by
  have h2π : (0 : ℝ) < 2 * π := by positivity
  have hfloor : ⌊(to_local ⟨0, 0, 0⟩ tgtC3).azimuth / (2 * π)⌋ = -1 := by
    rw [Int.floor_eq_iff]
    constructor
    · push_cast
      rw [le_div_iff₀ h2π]
      have := az_C3_gt
      have := pi_pos
      linarith
    · push_cast
      have := div_neg_of_neg_of_pos az_C3_neg h2π
      linarith
  rw [rmod, hfloor]
  push_cast
  ring

/-- The mod-2π-normalized local coordinate is accepted by the window. -/
theorem contains_norm_C3 :
    View.contains viewC3 (normalize_azimuth (to_local ⟨0, 0, 0⟩ tgtC3)) := by
  have haz := az_C3_neg
  have hgt := az_C3_gt
  have hπ := pi_pos
  simp only [viewC3, normalize_azimuth, View.contains, rmod_az_C3]
  rw [to_local_altitude_angle]
  refine ⟨⟨Real.arccos_nonneg _, Real.arccos_le_pi _⟩, Or.inl ⟨by linarith, by linarith⟩⟩

/-- `can_see` at the C3 camera/plane evaluates containment of the raw local
coordinate of the single recorded sample. -/
theorem can_see_C3_eq :
    Camera.can_see camC3 planeC3 0 =
      some (View.contains viewC3 (to_local ⟨0, 0, 0⟩ tgtC3)) := by
  simp only [Camera.can_see, camC3, planeC3]
  rw [(append_single 0 0 tgtC3).2 0]

/-- Claim C3 counterexample: at a concrete camera and aircraft, `can_see`
evaluates containment on the raw `to_local` azimuth, which is negative (not
normalized into [0, 2π)); the containment verdict differs from the verdict
on the mod-2π-normalized azimuth, so no normalization happens before
`contains` is invoked. -/
theorem C3_counterexample :
    Camera.can_see camC3 planeC3 0 =
      some (View.contains viewC3 (to_local ⟨0, 0, 0⟩ tgtC3)) ∧
    (to_local ⟨0, 0, 0⟩ tgtC3).azimuth < 0 ∧
    ¬ View.contains viewC3 (to_local ⟨0, 0, 0⟩ tgtC3) ∧
    View.contains viewC3 (normalize_azimuth (to_local ⟨0, 0, 0⟩ tgtC3)) :=
  ⟨can_see_C3_eq, az_C3_neg, not_contains_C3, contains_norm_C3⟩

/-- Claim C3 amended: with its own position and view set, `can_see` converts
the aircraft's current estimated position to local coordinates relative to
the camera's position and evaluates containment directly on the azimuth
returned by `to_local`, with no modulo-2π normalization applied first. -/
theorem C3_can_see_raw_azimuth (cam : Camera) (gp : GPSCoord) (v : View)
    (plane : Airplane) (t : ℝ)
    (h1 : cam.gps_position = some gp) (h2 : cam.view = some v) :
    cam.can_see plane t = some (View.contains v (to_local gp (plane.position t))) := by
  simp [Camera.can_see, h1, h2]

/-- Witness for C3 at the concrete camera and plane. -/
theorem C3_witness :
    Camera.can_see camC3 planeC3 0 =
      some (View.contains viewC3 (to_local ⟨0, 0, 0⟩ (planeC3.position 0))) :=
  C3_can_see_raw_azimuth camC3 ⟨0, 0, 0⟩ viewC3 planeC3 0 rfl rfl
